import Mathlib

/-!
# Wearable-navigation hazard core: verification of the sensor/actuator loops

Shallow embedding of the fall-detection state machine, the ultrasonic
obstacle loop, the pulse-timing distance measurement, the actuator
arbitration, and the sysfs GPIO cleanup path of the wearable-navigation
repository (files `tests/hardware/mpu_fall_detection.py`,
`tests/hardware/demul2.py`, `tests/hardware/ultrasonic.py`,
`alerts/testing_multithread.py`).

Machine floats carrying accelerations, times and distances are modelled as
rationals; the properties checked are all order comparisons and exact
arithmetic on these quantities.  Each loop iteration of the Python code
becomes a step function on an explicit state, and a loop run is a fold of
that step over a finite trace of samples.
-/

namespace WearNav

/-! ## Fall-detection state machine

From `tests/hardware/mpu_fall_detection.py` (`main`, lines 107-174) and
`tests/hardware/demul2.py` (`mpu6050_loop`).  The Python keeps
`state` (a string, `"idle"` or `"freefall"`), `freefall_start` and
`cooldown_until`; each iteration sees the current magnitude `a_mag`, the
jerk magnitude `jerk_mag` and the monotonic time `now`.
-/

inductive FallPhase where
  | idle : FallPhase
  | freefall : FallPhase
deriving DecidableEq

structure FallState where
  phase : FallPhase
  freefall_start : ℚ
  cooldown_until : ℚ
deriving DecidableEq

/-- One accelerometer sample as seen by the loop body: the monotonic time
`t` (`now`), the magnitude `a_mag` and the jerk magnitude `jerk_mag`. -/
structure AccelSample where
  t : ℚ
  a_mag : ℚ
  jerk_mag : ℚ
deriving DecidableEq

/-- The thresholds that vary across the source variants (spec §9 exposes
them as configuration). -/
structure FallConfig where
  freefall_g : ℚ
  impact_g : ℚ
  window : ℚ
  cooldown : ℚ
  jerk_thresh : ℚ
  jerk_baseline : ℚ
deriving DecidableEq

/-- The constants of `tests/hardware/mpu_fall_detection.py`:
`FREEFALL_G = 0.5`, `IMPACT_G = 2.5`, `FREEFALL_TO_IMPACT = 0.7`,
`COOLDOWN_SEC = 2.0`, `JERK_THRESH_GPS = 15.0`, and the hard-coded
baseline `a_mag > 1.5` of the jerk branch. -/
def fallDetectCfg : FallConfig :=
  { freefall_g := 1/2, impact_g := 5/2, window := 7/10, cooldown := 2,
    jerk_thresh := 15, jerk_baseline := 3/2 }

/-- Initial loop state: `state = "idle"`, `freefall_start = 0.0`,
`cooldown_until = 0.0`. -/
def initFall : FallState :=
  { phase := .idle, freefall_start := 0, cooldown_until := 0 }

/-- One iteration of the fall-detection loop body
(`mpu_fall_detection.py` lines 138-160).  Returns the next state and
whether an alert fired on this iteration (`print("FALL DETECTED ...")` /
buzzer-and-notifier invocation). -/
def fallStep (cfg : FallConfig) (s : FallState) (x : AccelSample) :
    FallState × Bool :=
  if x.t < s.cooldown_until then
    (s, false)
  else
    match s.phase with
    | .idle =>
        if x.a_mag < cfg.freefall_g then
          ({ s with phase := .freefall, freefall_start := x.t }, false)
        else if cfg.jerk_thresh < x.jerk_mag ∧ cfg.jerk_baseline < x.a_mag then
          ({ s with cooldown_until := x.t + cfg.cooldown }, true)
        else
          (s, false)
    | .freefall =>
        if cfg.impact_g < x.a_mag ∧ x.t - s.freefall_start ≤ cfg.window then
          ({ s with phase := .idle, cooldown_until := x.t + cfg.cooldown },
           true)
        else if cfg.window < x.t - s.freefall_start then
          ({ s with phase := .idle }, false)
        else
          (s, false)

/-- Run the loop over a finite trace, counting fired alerts. -/
def fallRun (cfg : FallConfig) (s : FallState) :
    List AccelSample → FallState × Nat
  | [] => (s, 0)
  | x :: xs =>
      ((fallRun cfg (fallStep cfg s x).1 xs).1,
       (if (fallStep cfg s x).2 then 1 else 0) +
         (fallRun cfg (fallStep cfg s x).1 xs).2)

/-- A sample that triggers no branch while the machine is Idle: magnitude
at or above the freefall threshold and no jerk trigger. -/
def CalmIdle (cfg : FallConfig) (x : AccelSample) : Prop :=
  cfg.freefall_g ≤ x.a_mag ∧
    (x.jerk_mag ≤ cfg.jerk_thresh ∨ x.a_mag ≤ cfg.jerk_baseline)

/-- A sample that triggers no branch while the machine is in Freefall with
onset time `fstart`: no impact spike, still inside the window. -/
def QuietFall (cfg : FallConfig) (fstart : ℚ) (x : AccelSample) : Prop :=
  x.a_mag ≤ cfg.impact_g ∧ x.t - fstart ≤ cfg.window

lemma fallStep_cooldown (cfg : FallConfig) (s : FallState) (x : AccelSample)
    (h : x.t < s.cooldown_until) : fallStep cfg s x = (s, false) := by
  unfold fallStep
  rw [if_pos h]

lemma fallStep_calm (cfg : FallConfig) (s : FallState) (x : AccelSample)
    (hph : s.phase = .idle) (hx : CalmIdle cfg x) :
    fallStep cfg s x = (s, false) := by
  obtain ⟨h1, h2⟩ := hx
  have hnf : ¬x.a_mag < cfg.freefall_g := not_lt.mpr h1
  have hnj : ¬(cfg.jerk_thresh < x.jerk_mag ∧ cfg.jerk_baseline < x.a_mag) := by
    rintro ⟨hj, hb⟩
    rcases h2 with h2 | h2
    · exact absurd hj (not_lt.mpr h2)
    · exact absurd hb (not_lt.mpr h2)
  by_cases hcd : x.t < s.cooldown_until
  · simp [fallStep, hcd]
  · simp [fallStep, hcd, hph, hnf, hnj]

lemma fallStep_quiet (cfg : FallConfig) (s : FallState) (x : AccelSample)
    (hph : s.phase = .freefall) (hx : QuietFall cfg s.freefall_start x) :
    fallStep cfg s x = (s, false) := by
  obtain ⟨h1, h2⟩ := hx
  have hni : ¬(cfg.impact_g < x.a_mag ∧
      x.t - s.freefall_start ≤ cfg.window) := by
    rintro ⟨hi, _⟩
    exact absurd hi (not_lt.mpr h1)
  have hnw : ¬cfg.window < x.t - s.freefall_start := not_lt.mpr h2
  by_cases hcd : x.t < s.cooldown_until
  · simp [fallStep, hcd]
  · simp only [fallStep, hph, if_neg hcd, if_neg hni, if_neg hnw]

lemma fallRun_calm (cfg : FallConfig) (s : FallState)
    (hph : s.phase = .idle) (tr : List AccelSample)
    (h : ∀ x ∈ tr, CalmIdle cfg x) : fallRun cfg s tr = (s, 0) := by
  induction tr with
  | nil => rfl
  | cons x xs ih =>
      have hx : CalmIdle cfg x := h x (List.mem_cons_self x xs)
      have hxs : ∀ y ∈ xs, CalmIdle cfg y := fun y hy =>
        h y (List.mem_cons_of_mem x hy)
      simp only [fallRun]
      rw [fallStep_calm cfg s x hph hx]
      simp [ih hxs]

lemma fallRun_quiet (cfg : FallConfig) (s : FallState)
    (hph : s.phase = .freefall) (tr : List AccelSample)
    (h : ∀ x ∈ tr, QuietFall cfg s.freefall_start x) :
    fallRun cfg s tr = (s, 0) := by
  induction tr with
  | nil => rfl
  | cons x xs ih =>
      have hx := h x (List.mem_cons_self x xs)
      have hxs : ∀ y ∈ xs, QuietFall cfg s.freefall_start y := fun y hy =>
        h y (List.mem_cons_of_mem x hy)
      simp only [fallRun]
      rw [fallStep_quiet cfg s x hph hx]
      simp [ih hxs]

lemma fallRun_append (cfg : FallConfig) (s : FallState)
    (l1 l2 : List AccelSample) :
    fallRun cfg s (l1 ++ l2) =
      ((fallRun cfg (fallRun cfg s l1).1 l2).1,
       (fallRun cfg s l1).2 + (fallRun cfg (fallRun cfg s l1).1 l2).2) := by
  induction l1 generalizing s with
  | nil => simp [fallRun]
  | cons x xs ih =>
      simp only [List.cons_append, fallRun, List.append_eq]
      rw [ih]
      simp [Nat.add_assoc]

instance (cfg : FallConfig) (x : AccelSample) : Decidable (CalmIdle cfg x) := by
  unfold CalmIdle
  infer_instance

instance (cfg : FallConfig) (fstart : ℚ) (x : AccelSample) :
    Decidable (QuietFall cfg fstart x) := by
  unfold QuietFall
  infer_instance

lemma fallStep_enter_freefall (cfg : FallConfig) (s : FallState)
    (x : AccelSample) (hph : s.phase = .idle) (hcd : s.cooldown_until ≤ x.t)
    (hff : x.a_mag < cfg.freefall_g) :
    fallStep cfg s x =
      ({ s with phase := .freefall, freefall_start := x.t }, false) := by
  have hcd' : ¬x.t < s.cooldown_until := not_lt.mpr hcd
  simp [fallStep, hcd', hph, hff]

lemma fallStep_impact (cfg : FallConfig) (s : FallState) (x : AccelSample)
    (hph : s.phase = .freefall) (hcd : s.cooldown_until ≤ x.t)
    (hi : cfg.impact_g < x.a_mag) (hw : x.t - s.freefall_start ≤ cfg.window) :
    fallStep cfg s x =
      ({ s with phase := .idle, cooldown_until := x.t + cfg.cooldown },
       true) := by
  have hcd' : ¬x.t < s.cooldown_until := not_lt.mpr hcd
  simp only [fallStep, hph, if_neg hcd', if_pos (And.intro hi hw)]

lemma fallStep_elapse (cfg : FallConfig) (s : FallState) (x : AccelSample)
    (hph : s.phase = .freefall) (hcd : s.cooldown_until ≤ x.t)
    (hw : cfg.window < x.t - s.freefall_start) :
    fallStep cfg s x = ({ s with phase := .idle }, false) := by
  have hcd' : ¬x.t < s.cooldown_until := not_lt.mpr hcd
  have hni : ¬(cfg.impact_g < x.a_mag ∧
      x.t - s.freefall_start ≤ cfg.window) := by
    rintro ⟨_, hle⟩
    exact absurd hw (not_lt.mpr hle)
  simp only [fallStep, hph, if_neg hcd', if_neg hni, if_pos hw]

lemma fallStep_jerk (cfg : FallConfig) (s : FallState) (x : AccelSample)
    (hph : s.phase = .idle) (hcd : s.cooldown_until ≤ x.t)
    (hnf : cfg.freefall_g ≤ x.a_mag) (hj : cfg.jerk_thresh < x.jerk_mag)
    (hb : cfg.jerk_baseline < x.a_mag) :
    fallStep cfg s x =
      ({ s with cooldown_until := x.t + cfg.cooldown }, true) := by
  have hcd' : ¬x.t < s.cooldown_until := not_lt.mpr hcd
  have hnf' : ¬x.a_mag < cfg.freefall_g := not_lt.mpr hnf
  simp only [fallStep, hph, if_neg hcd', if_neg hnf',
    if_pos (And.intro hj hb)]

lemma fallStep_fired_cooldown (cfg : FallConfig) (s s' : FallState)
    (x : AccelSample) (h : fallStep cfg s x = (s', true)) :
    s'.cooldown_until = x.t + cfg.cooldown := by
  unfold fallStep at h
  split at h
  · simp at h
  · split at h
    · split at h
      · simp at h
      · split at h
        · obtain ⟨h1, -⟩ := Prod.mk.injEq .. ▸ h
          rw [← h1]
        · simp at h
    · split at h
      · obtain ⟨h1, -⟩ := Prod.mk.injEq .. ▸ h
        rw [← h1]
      · split at h
        · simp at h
        · simp at h

lemma fallRun_cooldown (cfg : FallConfig) (s : FallState)
    (tr : List AccelSample) (h : ∀ y ∈ tr, y.t < s.cooldown_until) :
    fallRun cfg s tr = (s, 0) := by
  induction tr with
  | nil => rfl
  | cons x xs ih =>
      have hx := h x (List.mem_cons_self x xs)
      have hxs : ∀ y ∈ xs, y.t < s.cooldown_until := fun y hy =>
        h y (List.mem_cons_of_mem x hy)
      simp only [fallRun]
      rw [fallStep_cooldown cfg s x hx]
      simp [ih hxs]

/-- The common part of both branches of C1: calm prefix, freefall entry at
`f`, quiet middle; the run then reduces to the single step at `z` taken from
the Freefall state with onset `f.t`. -/
lemma fallRun_episode (cfg : FallConfig) (pre mid : List AccelSample)
    (f z : AccelSample) (hpre : ∀ x ∈ pre, CalmIdle cfg x) (hft : 0 ≤ f.t)
    (hff : f.a_mag < cfg.freefall_g) (hmid : ∀ x ∈ mid, QuietFall cfg f.t x) :
    fallRun cfg initFall (pre ++ f :: (mid ++ [z])) =
      ((fallStep cfg ⟨.freefall, f.t, 0⟩ z).1,
       if (fallStep cfg ⟨.freefall, f.t, 0⟩ z).2 then 1 else 0) := by
  have hpre' : fallRun cfg initFall pre = (initFall, 0) :=
    fallRun_calm cfg initFall rfl pre hpre
  have hf : fallStep cfg initFall f = (⟨.freefall, f.t, 0⟩, false) :=
    fallStep_enter_freefall cfg initFall f rfl hft hff
  have hmid' : fallRun cfg ⟨.freefall, f.t, 0⟩ mid =
      (⟨.freefall, f.t, 0⟩, 0) :=
    fallRun_quiet cfg ⟨.freefall, f.t, 0⟩ rfl mid hmid
  rw [fallRun_append, hpre']
  simp only [fallRun]
  rw [hf]
  simp only
  rw [fallRun_append, hmid']
  simp [fallRun]

/-- **C1.** FSM safety for a freefall episode, over the loop of
`mpu_fall_detection.py` (`main`) / `demul2.py` (`mpu6050_loop`): starting in
Idle with no active cooldown, after an arbitrary calm prefix, a sample `f`
strictly below `freefall_g` enters Freefall; if, after further quiet
samples, a sample `z` strictly above `impact_g` arrives within the
freefall-to-impact window, exactly one alert fires and the phase returns to
Idle; if instead `z` arrives after the window has elapsed (and no impact
sample arrived inside it), zero alerts fire and the phase returns to
Idle. -/
theorem fall_fsm_safety (cfg : FallConfig) (pre mid : List AccelSample)
    (f z : AccelSample) (hpre : ∀ x ∈ pre, CalmIdle cfg x) (hft : 0 ≤ f.t)
    (hff : f.a_mag < cfg.freefall_g) (hmid : ∀ x ∈ mid, QuietFall cfg f.t x)
    (hzt : 0 ≤ z.t) :
    (cfg.impact_g < z.a_mag → z.t - f.t ≤ cfg.window →
       fallRun cfg initFall (pre ++ f :: (mid ++ [z])) =
         ({ phase := .idle, freefall_start := f.t,
            cooldown_until := z.t + cfg.cooldown }, 1)) ∧
    (cfg.window < z.t - f.t →
       fallRun cfg initFall (pre ++ f :: (mid ++ [z])) =
         ({ phase := .idle, freefall_start := f.t, cooldown_until := 0 },
          0)) := by
  constructor
  · intro hi hw
    rw [fallRun_episode cfg pre mid f z hpre hft hff hmid]
    rw [fallStep_impact cfg ⟨.freefall, f.t, 0⟩ z rfl hzt hi hw]
    rfl
  · intro hw
    rw [fallRun_episode cfg pre mid f z hpre hft hff hmid]
    rw [fallStep_elapse cfg ⟨.freefall, f.t, 0⟩ z rfl hzt hw]
    rfl

/-- Witness for C1: the two scenarios of spec §8 (B and C) in miniature,
evaluated concretely on `fallDetectCfg`. -/
theorem fall_fsm_safety_witness :
    fallRun fallDetectCfg initFall
        ([⟨0, 1, 0⟩] ++ ⟨1/100, 1/10, 0⟩ ::
          ([⟨2/100, 1/10, 0⟩] ++ [⟨3/100, 3, 0⟩])) =
      ({ phase := .idle, freefall_start := 1/100,
         cooldown_until := 3/100 + 2 }, 1) ∧
    fallRun fallDetectCfg initFall
        ([⟨0, 1, 0⟩] ++ ⟨1/100, 1/10, 0⟩ ::
          ([⟨2/100, 1/10, 0⟩] ++ [⟨1, 3, 0⟩])) =
      ({ phase := .idle, freefall_start := 1/100, cooldown_until := 0 },
       0) := by
  constructor
  · exact (fall_fsm_safety fallDetectCfg [⟨0, 1, 0⟩] [⟨2/100, 1/10, 0⟩]
      ⟨1/100, 1/10, 0⟩ ⟨3/100, 3, 0⟩
      (by norm_num [CalmIdle, fallDetectCfg]) (by norm_num)
      (by norm_num [fallDetectCfg]) (by norm_num [QuietFall, fallDetectCfg])
      (by norm_num)).1 (by norm_num [fallDetectCfg])
      (by norm_num [fallDetectCfg])
  · exact (fall_fsm_safety fallDetectCfg [⟨0, 1, 0⟩] [⟨2/100, 1/10, 0⟩]
      ⟨1/100, 1/10, 0⟩ ⟨1, 3, 0⟩
      (by norm_num [CalmIdle, fallDetectCfg]) (by norm_num)
      (by norm_num [fallDetectCfg]) (by norm_num [QuietFall, fallDetectCfg])
      (by norm_num)).2 (by norm_num [fallDetectCfg])

/-- **C2.** Cooldown exclusivity: (a) a loop iteration taken while
`now < cooldown_until` evaluates no transition and fires no alert (the
state is returned unchanged); (b) consequently, after any alert-firing
step at time `x.t`, no alert fires on any subsequent trace all of whose
sample times lie strictly before `x.t + cooldown`. -/
theorem cooldown_exclusivity (cfg : FallConfig) :
    (∀ (s : FallState) (x : AccelSample), x.t < s.cooldown_until →
       fallStep cfg s x = (s, false)) ∧
    (∀ (s s' : FallState) (x : AccelSample), fallStep cfg s x = (s', true) →
       ∀ tr : List AccelSample, (∀ y ∈ tr, y.t < x.t + cfg.cooldown) →
         (fallRun cfg s' tr).2 = 0) := by
  constructor
  · exact fun s x h => fallStep_cooldown cfg s x h
  · intro s s' x hfire tr htr
    have hcu : s'.cooldown_until = x.t + cfg.cooldown :=
      fallStep_fired_cooldown cfg s s' x hfire
    have hrun := fallRun_cooldown cfg s' tr (fun y hy => by
      rw [hcu]
      exact htr y hy)
    rw [hrun]

/-- Witness for C2: a concrete iteration during cooldown is a no-op, and a
concrete post-alert trace inside the cooldown window fires nothing. -/
theorem cooldown_exclusivity_witness :
    fallStep fallDetectCfg ⟨.idle, 0, 5⟩ ⟨1, 1, 0⟩ = (⟨.idle, 0, 5⟩, false) ∧
    (fallRun fallDetectCfg ⟨.idle, 0, 1/10 + 2⟩ [⟨1, 10, 100⟩]).2 = 0 := by
  constructor
  · exact (cooldown_exclusivity fallDetectCfg).1 ⟨.idle, 0, 5⟩ ⟨1, 1, 0⟩
      (by norm_num)
  · exact (cooldown_exclusivity fallDetectCfg).2 ⟨.freefall, 0, 0⟩
      ⟨.idle, 0, 1/10 + 2⟩ ⟨1/10, 3, 0⟩
      (fallStep_impact fallDetectCfg ⟨.freefall, 0, 0⟩ ⟨1/10, 3, 0⟩ rfl
        (by norm_num) (by norm_num [fallDetectCfg])
        (by norm_num [fallDetectCfg]))
      [⟨1, 10, 100⟩] (by norm_num [fallDetectCfg])

/-- **C6.** Secondary jerk trigger (`mpu_fall_detection.py` lines 146-150,
`testing_multithread.py` `mpu_thread`): while Idle with no active cooldown,
a sample whose jerk magnitude strictly exceeds `jerk_thresh` and whose
magnitude is strictly above the minimum baseline fires an alert through the
same mechanism as the freefall-to-impact path — the step reports a fired
alert and enters cooldown until `x.t + cooldown` — independently of the
freefall/impact path (the phase stays Idle).  The baseline dominating the
freefall threshold (true of every source variant: `1.5 > 0.5` and
`2 > 0.15`) is what keeps the freefall branch from pre-empting the jerk
branch. -/
theorem jerk_trigger_fires (cfg : FallConfig) (s : FallState)
    (x : AccelSample) (hvalid : cfg.freefall_g ≤ cfg.jerk_baseline)
    (hph : s.phase = .idle) (hcd : s.cooldown_until ≤ x.t)
    (hj : cfg.jerk_thresh < x.jerk_mag) (hb : cfg.jerk_baseline < x.a_mag) :
    fallStep cfg s x =
      ({ s with cooldown_until := x.t + cfg.cooldown }, true) :=
  fallStep_jerk cfg s x hph hcd (le_trans hvalid hb.le) hj hb

/-- Witness for C6: a concrete high-jerk sample at rest-exceeding magnitude
fires from Idle on `fallDetectCfg`. -/
theorem jerk_trigger_fires_witness :
    fallStep fallDetectCfg initFall ⟨1, 2, 20⟩ = (⟨.idle, 0, 1 + 2⟩, true) :=
  jerk_trigger_fires fallDetectCfg initFall ⟨1, 2, 20⟩
    (by norm_num [fallDetectCfg]) rfl (by norm_num [initFall])
    (by norm_num [fallDetectCfg]) (by norm_num [fallDetectCfg])

/-! ## Ultrasonic obstacle loop

From `tests/hardware/demul2.py` (`ultrasonic_loop`, lines 160-200; the
shared-state update is lines 170-179) and the identical bodies in
`demultithread.py` and `ultrahapticsema.py`.  The shared state is the pair
of globals `obstacle_detected` / `last_seen`; each iteration sees the
measurement result `d` (absent on timeout) and the wall-clock time `now`.
-/

structure ObstacleState where
  obstacle_detected : Bool
  last_seen : ℚ
deriving DecidableEq

/-- One iteration of the shared-state update in `ultrasonic_loop`:

```
if d:
    if d < 20:
        obstacle_detected = True
        last_seen = time.time()
    elif time.time() - last_seen > 1.5:
        obstacle_detected = False
```

The outer guard is Python truthiness on a float, so it fails both for
`None` (timeout) and for the value `0.0`. -/
def ultraStep (s : ObstacleState) (d : Option ℚ) (now : ℚ) : ObstacleState :=
  match d with
  | none => s
  | some v =>
      if v = 0 then s
      else if v < 20 then { obstacle_detected := true, last_seen := now }
      else if now - s.last_seen > 3/2 then { s with obstacle_detected := false }
      else s

/-- Counterexample to **C4** as stated: the sample `0.0` cm is present and
strictly below the 20 cm threshold, yet the iteration neither sets
`obstacle_detected` nor refreshes `last_seen` — the truthiness guard
`if d:` drops it. -/
theorem obstacle_zero_counterexample :
    (0:ℚ) < 20 ∧ ultraStep ⟨false, 0⟩ (some 0) 1 = ⟨false, 0⟩ := by
  constructor
  · norm_num
  · simp [ultraStep]

/-- **C4 (amended).** For every present range sample `v` that passes the
loop's truthiness guard (i.e. `v ≠ 0`): if `v < 20` then
`obstacle_detected` is set and `last_seen` is refreshed to `now`; and, for
any sample at all, `obstacle_detected` is cleared only when more than
1.5 s has elapsed since `last_seen` — it is never cleared earlier. -/
theorem obstacle_policy (s : ObstacleState) (now : ℚ) :
    (∀ v : ℚ, v ≠ 0 → v < 20 → ultraStep s (some v) now = ⟨true, now⟩) ∧
    (∀ d : Option ℚ, s.obstacle_detected = true →
       (ultraStep s d now).obstacle_detected = false →
       3/2 < now - s.last_seen) := by
  constructor
  · intro v hv0 hv20
    simp [ultraStep, hv0, hv20]
  · intro d htrue hfalse
    match d with
    | none => rw [ultraStep] at hfalse; rw [htrue] at hfalse; cases hfalse
    | some v =>
        rw [ultraStep] at hfalse
        by_cases hv0 : v = 0
        · rw [if_pos hv0, htrue] at hfalse
          cases hfalse
        · rw [if_neg hv0] at hfalse
          by_cases hv20 : v < 20
          · rw [if_pos hv20] at hfalse
            cases hfalse
          · rw [if_neg hv20] at hfalse
            by_cases hg : now - s.last_seen > 3/2
            · exact hg
            · rw [if_neg hg, htrue] at hfalse
              cases hfalse

/-- Witness for C4 (amended): a concrete 10 cm sample sets the flag and
timestamp; a concrete 30 cm sample after a 4 s gap is a clearing
iteration, and the theorem recovers `1.5 < 4`. -/
theorem obstacle_policy_witness :
    ultraStep ⟨false, 0⟩ (some 10) 5 = ⟨true, 5⟩ ∧ (3:ℚ)/2 < 4 - 0 := by
  constructor
  · exact (obstacle_policy ⟨false, 0⟩ 5).1 10 (by norm_num) (by norm_num)
  · exact (obstacle_policy ⟨true, 0⟩ 4).2 (some 30) rfl
      (by norm_num [ultraStep])

/-- **C10.** In the loops guarding the result with a truthiness test
(`if d:`), a successful measurement of exactly `0.0` cm is handled
identically to a timeout: the iteration neither sets `obstacle_detected`
nor refreshes `last_seen`, leaving the shared obstacle state unchanged —
even though `0.0` is strictly below the 20 cm threshold. -/
theorem zero_distance_like_timeout (s : ObstacleState) (now : ℚ) :
    ultraStep s (some 0) now = ultraStep s none now ∧
    ultraStep s (some 0) now = s ∧ (0:ℚ) < 20 := by
  refine ⟨?_, ?_, by norm_num⟩
  · simp [ultraStep]
  · simp [ultraStep]

/-! ## Pulse-timing distance measurement

From `tests/hardware/demul2.py` (`measure`, lines 136-157) and
`tests/hardware/ultrasonic.py` (`measure_distance`, lines 56-97).  A
busy-wait poll of the echo line is a sequence of reads, each paired with
the wall-clock time sampled just after the read (the time the code uses
both for the timeout test and for the pulse timestamps).
-/

structure EchoRead where
  level : Bool
  t : ℚ
deriving DecidableEq

/-- `demul2.py` line 157, `ultrahapticsema.py`, `demultithread.py`:
`(end - start) * 17150`, the speed-of-sound constant already halved. -/
def dist17150 (pulse_duration : ℚ) : ℚ :=
  pulse_duration * 17150

/-- `ultrasonic.py` line 96, `Multiprocessing.py` line 94:
`(pulse_duration * 34300) / 2`, the unhalved constant divided by two. -/
def dist34300 (pulse_duration : ℚ) : ℚ :=
  pulse_duration * 34300 / 2

/-- The rising-edge wait (`while read_value(echo) == "0"`), bounded at
200 ms from `t0`; yields the pulse-start time and the remaining reads, or
`none` on timeout.  An exhausted finite trace also yields `none`,
standing for the bound eventually being exceeded on a line that never
rises. -/
def waitRise (t0 : ℚ) : List EchoRead → Option (ℚ × List EchoRead)
  | [] => none
  | r :: rs =>
      if r.level = false then
        if r.t - t0 > 1/5 then none else waitRise t0 rs
      else
        some (r.t, rs)

/-- The falling-edge wait (`while read_value(echo) == "1"`), bounded at
200 ms from the pulse start. -/
def waitFall (start : ℚ) : List EchoRead → Option (ℚ × List EchoRead)
  | [] => none
  | r :: rs =>
      if r.level = true then
        if r.t - start > 1/5 then none else waitFall start rs
      else
        some (r.t, rs)

/-- `measure(trig, echo)` of `demul2.py` after the trigger pulse: wait for
the rising edge from `t0`, then for the falling edge from the pulse
start, and convert the pulse duration to centimeters. -/
def measure (t0 : ℚ) (trace : List EchoRead) : Option ℚ :=
  match waitRise t0 trace with
  | none => none
  | some (start, rest) =>
      match waitFall start rest with
      | none => none
      | some (stop, _) => some (dist17150 (stop - start))

lemma waitRise_high (t0 : ℚ) (r : EchoRead) (rs : List EchoRead)
    (h : r.level = true) : waitRise t0 (r :: rs) = some (r.t, rs) := by
  simp [waitRise, h]

lemma waitRise_low_timeout (t0 : ℚ) (r : EchoRead) (rs : List EchoRead)
    (hlev : r.level = false) (hto : 1/5 < r.t - t0) :
    waitRise t0 (r :: rs) = none := by
  unfold waitRise
  rw [hlev, if_pos rfl, if_pos hto]

lemma waitFall_low (start : ℚ) (r : EchoRead) (rs : List EchoRead)
    (h : r.level = false) : waitFall start (r :: rs) = some (r.t, rs) := by
  simp [waitFall, h]

lemma waitFall_high_timeout (start : ℚ) (r : EchoRead) (rs : List EchoRead)
    (hlev : r.level = true) (hto : 1/5 < r.t - start) :
    waitFall start (r :: rs) = none := by
  unfold waitFall
  rw [hlev, if_pos rfl, if_pos hto]

lemma measure_eq_none_rise (t0 : ℚ) (trace : List EchoRead)
    (h : waitRise t0 trace = none) : measure t0 trace = none := by
  unfold measure
  rw [h]

lemma measure_eq_none_fall (t0 : ℚ) (trace : List EchoRead) (start : ℚ)
    (rest : List EchoRead) (h1 : waitRise t0 trace = some (start, rest))
    (h2 : waitFall start rest = none) : measure t0 trace = none := by
  unfold measure
  simp only [h1, h2]

lemma measure_eq_some (t0 : ℚ) (trace : List EchoRead) (start stop : ℚ)
    (rest rest2 : List EchoRead)
    (h1 : waitRise t0 trace = some (start, rest))
    (h2 : waitFall start rest = some (stop, rest2)) :
    measure t0 trace = some (dist17150 (stop - start)) := by
  unfold measure
  simp only [h1, h2]

lemma waitRise_skip_lows (t0 : ℚ) (lows tail : List EchoRead)
    (hl : ∀ x ∈ lows, x.level = false ∧ x.t - t0 ≤ 1/5) :
    waitRise t0 (lows ++ tail) = waitRise t0 tail := by
  induction lows with
  | nil => rfl
  | cons r rs ih =>
      obtain ⟨hlev, hto⟩ := hl r (List.mem_cons_self r rs)
      have hrs : ∀ x ∈ rs, x.level = false ∧ x.t - t0 ≤ 1/5 := fun x hx =>
        hl x (List.mem_cons_of_mem r hx)
      simp only [List.cons_append, waitRise, hlev, if_true]
      rw [if_neg (not_lt.mpr hto)]
      exact ih hrs

lemma waitFall_skip_highs (start : ℚ) (highs tail : List EchoRead)
    (hl : ∀ x ∈ highs, x.level = true ∧ x.t - start ≤ 1/5) :
    waitFall start (highs ++ tail) = waitFall start tail := by
  induction highs with
  | nil => rfl
  | cons r rs ih =>
      obtain ⟨hlev, hto⟩ := hl r (List.mem_cons_self r rs)
      have hrs : ∀ x ∈ rs, x.level = true ∧ x.t - start ≤ 1/5 := fun x hx =>
        hl x (List.mem_cons_of_mem r hx)
      simp only [List.cons_append, waitFall, hlev, if_true]
      rw [if_neg (not_lt.mpr hto)]
      exact ih hrs

/-- **C5.** Timeout policy of `measure`: (a) if, with the line still low,
a poll exceeds the 200 ms rising-edge bound, `measure` returns `None`;
(b) if after the rising edge a poll with the line still high exceeds the
200 ms falling-edge bound, `measure` returns `None`; (c) the owning loop
treats a `None` result as a non-event and continues — the iteration
leaves the shared obstacle state unchanged. -/
theorem measure_timeout_none (t0 : ℚ) :
    (∀ (lows : List EchoRead) (r : EchoRead) (rest : List EchoRead),
       (∀ x ∈ lows, x.level = false ∧ x.t - t0 ≤ 1/5) →
       r.level = false → 1/5 < r.t - t0 →
       measure t0 (lows ++ r :: rest) = none) ∧
    (∀ (lows : List EchoRead) (hi : EchoRead) (highs : List EchoRead)
       (r : EchoRead) (rest : List EchoRead),
       (∀ x ∈ lows, x.level = false ∧ x.t - t0 ≤ 1/5) →
       hi.level = true →
       (∀ x ∈ highs, x.level = true ∧ x.t - hi.t ≤ 1/5) →
       r.level = true → 1/5 < r.t - hi.t →
       measure t0 (lows ++ hi :: (highs ++ r :: rest)) = none) ∧
    (∀ (s : ObstacleState) (now : ℚ), ultraStep s none now = s) := by
  refine ⟨?_, ?_, fun s now => rfl⟩
  · intro lows r rest hlows hlev hto
    apply measure_eq_none_rise
    rw [waitRise_skip_lows t0 lows (r :: rest) hlows]
    exact waitRise_low_timeout t0 r rest hlev hto
  · intro lows hi highs r rest hlows hhi hhighs hlev hto
    apply measure_eq_none_fall t0 _ hi.t (highs ++ r :: rest)
    · rw [waitRise_skip_lows t0 lows (hi :: (highs ++ r :: rest)) hlows]
      exact waitRise_high t0 hi (highs ++ r :: rest) hhi
    · rw [waitFall_skip_highs hi.t highs (r :: rest) hhighs]
      exact waitFall_high_timeout hi.t r rest hlev hto

/-- Witness for C5: a rising-edge timeout trace, a falling-edge timeout
trace, and a timeout iteration of the loop, all concrete. -/
theorem measure_timeout_none_witness :
    measure 0 ([⟨false, 1/10⟩] ++ ⟨false, 1/2⟩ :: []) = none ∧
    measure 0 ([⟨false, 1/10⟩] ++ ⟨true, 3/20⟩ ::
      ([⟨true, 1/4⟩] ++ ⟨true, 1⟩ :: [])) = none ∧
    ultraStep ⟨true, 7⟩ none 9 = ⟨true, 7⟩ := by
  refine ⟨?_, ?_, ?_⟩
  · exact (measure_timeout_none 0).1 [⟨false, 1/10⟩] ⟨false, 1/2⟩ []
      (by norm_num) rfl (by norm_num)
  · exact (measure_timeout_none 0).2.1 [⟨false, 1/10⟩] ⟨true, 3/20⟩
      [⟨true, 1/4⟩] ⟨true, 1⟩ [] (by norm_num) rfl (by norm_num) rfl
      (by norm_num)
  · exact (measure_timeout_none 0).2.2 ⟨true, 7⟩ 9

/-- The echo-line polls come with nondecreasing wall-clock timestamps. -/
def TimeSorted (trace : List EchoRead) : Prop :=
  List.Pairwise (fun a b => a.t ≤ b.t) trace

lemma waitRise_start_le (t0 : ℚ) (trace : List EchoRead)
    (hs : TimeSorted trace) (start : ℚ) (rest : List EchoRead)
    (h : waitRise t0 trace = some (start, rest)) :
    ∀ x ∈ rest, start ≤ x.t := by
  induction trace with
  | nil => cases h
  | cons r rs ih =>
      unfold TimeSorted at hs
      rw [List.pairwise_cons] at hs
      unfold waitRise at h
      by_cases hlev : r.level = false
      · rw [if_pos hlev] at h
        by_cases hto : r.t - t0 > 1/5
        · rw [if_pos hto] at h
          cases h
        · rw [if_neg hto] at h
          exact ih hs.2 h
      · rw [if_neg hlev] at h
        injection h with h2
        injection h2 with ha hb
        subst ha
        subst hb
        intro x hx
        exact hs.1 x hx

lemma waitFall_stop_ge (start : ℚ) (l : List EchoRead)
    (hge : ∀ x ∈ l, start ≤ x.t) (stop : ℚ) (rest : List EchoRead)
    (h : waitFall start l = some (stop, rest)) : start ≤ stop := by
  induction l with
  | nil => cases h
  | cons r rs ih =>
      have hr : start ≤ r.t := hge r (List.mem_cons_self r rs)
      have hrs : ∀ x ∈ rs, start ≤ x.t := fun x hx =>
        hge x (List.mem_cons_of_mem r hx)
      unfold waitFall at h
      by_cases hlev : r.level = true
      · rw [if_pos hlev] at h
        by_cases hto : r.t - start > 1/5
        · rw [if_pos hto] at h
          cases h
        · rw [if_neg hto] at h
          exact ih hrs h
      · rw [if_neg hlev] at h
        injection h with h2
        injection h2 with ha hb
        subst ha
        exact hr

/-- **C7.** Whenever a distance measurement over a time-sorted poll trace
returns a present result, that distance is nonnegative. -/
theorem measure_nonneg (t0 : ℚ) (trace : List EchoRead)
    (hs : TimeSorted trace) :
    ∀ dv : ℚ, measure t0 trace = some dv → 0 ≤ dv := by
  intro dv h
  cases hr : waitRise t0 trace with
  | none =>
      rw [measure_eq_none_rise t0 trace hr] at h
      cases h
  | some p =>
      obtain ⟨start, rest⟩ := p
      cases hf : waitFall start rest with
      | none =>
          rw [measure_eq_none_fall t0 trace start rest hr hf] at h
          cases h
      | some q =>
          obtain ⟨stop, rest2⟩ := q
          rw [measure_eq_some t0 trace start stop rest rest2 hr hf] at h
          have hge := waitRise_start_le t0 trace hs start rest hr
          have hss : start ≤ stop :=
            waitFall_stop_ge start rest hge stop rest2 hf
          injection h with hdv
          rw [← hdv]
          unfold dist17150
          have hnn : (0:ℚ) ≤ stop - start := by linarith
          positivity

/-- Witness for C7: a concrete sorted trace whose measurement is present,
with the nonnegativity recovered from the theorem. -/
theorem measure_nonneg_witness :
    (0:ℚ) ≤ 343/2 ∧
    measure 0 [⟨false, 1/100⟩, ⟨true, 2/100⟩, ⟨false, 3/100⟩] =
      some (343/2) := by
  have hrise : waitRise 0 [⟨false, 1/100⟩, ⟨true, 2/100⟩, ⟨false, 3/100⟩] =
      some (2/100, [⟨false, 3/100⟩]) := by
    norm_num [waitRise]
  have hfall : waitFall (2/100) [(⟨false, 3/100⟩ : EchoRead)] =
      some (3/100, []) := by
    norm_num [waitFall]
  have hm : measure 0 [⟨false, 1/100⟩, ⟨true, 2/100⟩, ⟨false, 3/100⟩] =
      some (343/2) := by
    rw [measure_eq_some 0 _ (2/100) (3/100) [⟨false, 3/100⟩] [] hrise hfall]
    norm_num [dist17150]
  refine ⟨?_, hm⟩
  exact measure_nonneg 0 [⟨false, 1/100⟩, ⟨true, 2/100⟩, ⟨false, 3/100⟩]
    (by norm_num [TimeSorted, List.pairwise_cons]) (343/2) hm

/-- **C8.** The two distance conventions appearing across the source
variants — `pulse_duration * 17150` and `(pulse_duration * 34300) / 2` —
agree at every pulse duration. -/
theorem distance_conventions_agree (pulse_duration : ℚ) :
    dist17150 pulse_duration = dist34300 pulse_duration := by
  unfold dist17150 dist34300
  ring

/-! ## Actuator arbitration

From `alerts/testing_multithread.py` (`ultrasonic_thread`, line 115) and
`tests/hardware/demul2.py` (`ultrasonic_loop`, lines 166-195): the motor
is commanded from the obstacle signal, gated by the fall-alert flag
(`fall_detected` / `pause_ultrasonic`).
-/

/-- `testing_multithread.py` line 115:
`motor_state = int(dist < 20 and not fall_detected)`. -/
def motorCommand (dist : ℚ) (fall_detected : Bool) : Bool :=
  decide (dist < 20) && !fall_detected

/-- `demul2.py` `ultrasonic_loop`: with `pause_ultrasonic` set (fall alert
active) the iteration drives the motor low; otherwise the motor follows
`obstacle_detected`. -/
def pausedMotorCommand (paused : Bool) (obstacle_detected : Bool) : Bool :=
  if paused then false else obstacle_detected

/-- **C3.** Actuator priority: whenever the fall-alert flag is true, the
commanded motor output is false, even if the obstacle signal is
simultaneously active — in both arbitration variants. -/
theorem fall_alert_overrides_motor (dist : ℚ) (obstacle_detected : Bool) :
    motorCommand dist true = false ∧
    pausedMotorCommand true obstacle_detected = false := by
  constructor
  · simp [motorCommand]
  · rfl

/-! ## Sysfs GPIO shutdown path

From `tests/hardware/demul2.py`: `unexport_gpio` (lines 61-80),
`write_value` (lines 93-100) and `cleanup` (lines 299-311).  The sysfs
world is the set of exported pins (`/sys/class/gpio/gpioN` directories)
with their current line values, as an association list. -/

def TRIG_PIN : Nat := 426

def ECHO_PIN : Nat := 485

def MOTOR_PIN : Nat := 484

def BUZZER_PIN : Nat := 487

abbrev GpioWorld := List (Nat × Bool)

def exportedPins (w : GpioWorld) : List Nat := w.map Prod.fst

/-- `write_value(pin, val)`: write the value file of an exported pin; on
an unexported pin the `OSError` is caught and logged, and the world is
unchanged. -/
def write_value (pin : Nat) (v : Bool) (w : GpioWorld) : GpioWorld :=
  w.map (fun p => if p.1 = pin then (p.1, v) else p)

/-- `unexport_gpio(pin)`: if the `gpioN` directory does not exist, return
immediately; otherwise remove it (EINVAL/ENOENT from a concurrent removal
are swallowed). -/
def unexport_gpio (pin : Nat) (w : GpioWorld) : GpioWorld :=
  if pin ∈ exportedPins w then w.filter (fun p => p.1 ≠ pin) else w

/-- One round of the `cleanup` loop body: `write_value(pin, 0)` with any
exception swallowed, then `unexport_gpio(pin)`. -/
def cleanupPin (w : GpioWorld) (pin : Nat) : GpioWorld :=
  unexport_gpio pin (write_value pin false w)

/-- `cleanup()`: drive each of the four pins low and unexport it, in
order. -/
def cleanup (w : GpioWorld) : GpioWorld :=
  [TRIG_PIN, ECHO_PIN, MOTOR_PIN, BUZZER_PIN].foldl cleanupPin w

lemma write_value_not_exported (pin : Nat) (v : Bool) (w : GpioWorld)
    (h : pin ∉ exportedPins w) : write_value pin v w = w := by
  induction w with
  | nil => rfl
  | cons p ps ih =>
      have hp : p.1 ≠ pin := by
        intro he
        exact h (he ▸ List.mem_map_of_mem Prod.fst (List.mem_cons_self p ps))
      have hps : pin ∉ exportedPins ps := fun hm =>
        h (List.mem_cons_of_mem p.1 hm)
      simp only [write_value, List.map_cons, if_neg hp]
      rw [List.cons_inj_right]
      exact ih hps

lemma exportedPins_write_value (pin : Nat) (v : Bool) (w : GpioWorld) :
    exportedPins (write_value pin v w) = exportedPins w := by
  induction w with
  | nil => rfl
  | cons p ps ih =>
      simp only [write_value, exportedPins, List.map_cons] at ih ⊢
      rw [List.cons_eq_cons]
      constructor
      · by_cases hp : p.1 = pin
        · rw [if_pos hp]
        · rw [if_neg hp]
      · exact ih

lemma not_mem_exportedPins_unexport (pin : Nat) (w : GpioWorld) :
    pin ∉ exportedPins (unexport_gpio pin w) := by
  unfold unexport_gpio
  by_cases hm : pin ∈ exportedPins w
  · rw [if_pos hm]
    intro hmem
    obtain ⟨p, hp, hfst⟩ := List.mem_map.mp hmem
    have := List.of_mem_filter hp
    rw [hfst] at this
    simp at this
  · rw [if_neg hm]
    exact hm

lemma exportedPins_unexport_subset (pin q : Nat) (w : GpioWorld)
    (h : q ∈ exportedPins (unexport_gpio pin w)) : q ∈ exportedPins w := by
  unfold unexport_gpio at h
  by_cases hm : pin ∈ exportedPins w
  · rw [if_pos hm] at h
    obtain ⟨p, hp, hfst⟩ := List.mem_map.mp h
    exact hfst ▸ List.mem_map_of_mem Prod.fst (List.mem_of_mem_filter hp)
  · rw [if_neg hm] at h
    exact h

lemma unexport_not_exported (pin : Nat) (w : GpioWorld)
    (h : pin ∉ exportedPins w) : unexport_gpio pin w = w := by
  unfold unexport_gpio
  rw [if_neg h]

lemma cleanupPin_self_gone (w : GpioWorld) (pin : Nat) :
    pin ∉ exportedPins (cleanupPin w pin) :=
  not_mem_exportedPins_unexport pin (write_value pin false w)

lemma cleanupPin_gone_mono (w : GpioWorld) (pin q : Nat)
    (h : q ∉ exportedPins w) : q ∉ exportedPins (cleanupPin w pin) := by
  intro hmem
  have h1 := exportedPins_unexport_subset pin q (write_value pin false w) hmem
  rw [exportedPins_write_value] at h1
  exact h h1

lemma cleanupPin_not_exported (w : GpioWorld) (pin : Nat)
    (h : pin ∉ exportedPins w) : cleanupPin w pin = w := by
  unfold cleanupPin
  rw [write_value_not_exported pin false w h, unexport_not_exported pin w h]

lemma cleanup_releases (w : GpioWorld) :
    TRIG_PIN ∉ exportedPins (cleanup w) ∧
    ECHO_PIN ∉ exportedPins (cleanup w) ∧
    MOTOR_PIN ∉ exportedPins (cleanup w) ∧
    BUZZER_PIN ∉ exportedPins (cleanup w) := by
  have hc : cleanup w =
      cleanupPin (cleanupPin (cleanupPin (cleanupPin w TRIG_PIN) ECHO_PIN)
        MOTOR_PIN) BUZZER_PIN := by
    simp only [cleanup, List.foldl_cons, List.foldl_nil]
  rw [hc]
  refine ⟨?_, ?_, ?_, ?_⟩
  · exact cleanupPin_gone_mono _ _ _ (cleanupPin_gone_mono _ _ _
      (cleanupPin_gone_mono _ _ _ (cleanupPin_self_gone w TRIG_PIN)))
  · exact cleanupPin_gone_mono _ _ _ (cleanupPin_gone_mono _ _ _
      (cleanupPin_self_gone _ ECHO_PIN))
  · exact cleanupPin_gone_mono _ _ _ (cleanupPin_self_gone _ MOTOR_PIN)
  · exact cleanupPin_self_gone _ BUZZER_PIN

lemma cleanup_fixed (w : GpioWorld)
    (h1 : TRIG_PIN ∉ exportedPins w) (h2 : ECHO_PIN ∉ exportedPins w)
    (h3 : MOTOR_PIN ∉ exportedPins w) (h4 : BUZZER_PIN ∉ exportedPins w) :
    cleanup w = w := by
  have hc : cleanup w =
      cleanupPin (cleanupPin (cleanupPin (cleanupPin w TRIG_PIN) ECHO_PIN)
        MOTOR_PIN) BUZZER_PIN := by
    simp only [cleanup, List.foldl_cons, List.foldl_nil]
  rw [hc, cleanupPin_not_exported w TRIG_PIN h1,
    cleanupPin_not_exported w ECHO_PIN h2,
    cleanupPin_not_exported w MOTOR_PIN h3,
    cleanupPin_not_exported w BUZZER_PIN h4]

/-- **C9.** The shutdown path is idempotent: (a) running `cleanup` twice
ends in the same state as running it once (and the second run, like the
first, raises nothing — every error branch is swallowed by construction);
(b) releasing a handle that was never acquired (`unexport_gpio` on a pin
whose sysfs directory does not exist) is a no-op; (c) after `cleanup`,
every one of the four GPIO handles is released. -/
theorem cleanup_idempotent :
    (∀ w : GpioWorld, cleanup (cleanup w) = cleanup w) ∧
    (∀ (pin : Nat) (w : GpioWorld), pin ∉ exportedPins w →
       unexport_gpio pin w = w) ∧
    (∀ w : GpioWorld,
       TRIG_PIN ∉ exportedPins (cleanup w) ∧
       ECHO_PIN ∉ exportedPins (cleanup w) ∧
       MOTOR_PIN ∉ exportedPins (cleanup w) ∧
       BUZZER_PIN ∉ exportedPins (cleanup w)) := by
  refine ⟨?_, unexport_not_exported, cleanup_releases⟩
  intro w
  obtain ⟨h1, h2, h3, h4⟩ := cleanup_releases w
  exact cleanup_fixed (cleanup w) h1 h2 h3 h4

/-- Witness for C9: unexporting a pin that was never exported leaves a
concrete world untouched, and `cleanup` of a concrete world is a fixed
point of a second `cleanup`. -/
theorem cleanup_idempotent_witness :
    unexport_gpio 5 [(3, true)] = [(3, true)] ∧
    cleanup (cleanup [(426, true), (3, false)]) =
      cleanup [(426, true), (3, false)] := by
  constructor
  · exact cleanup_idempotent.2.1 5 [(3, true)] (by simp [exportedPins])
  · exact cleanup_idempotent.1 [(426, true), (3, false)]

end WearNav

